import Mathlib

/-!
Verification of the distributed LeNet trainer (`lenet.cpp`).

The development shallowly embeds the parts of the source the claims are
about:

* device buffers of 32-bit floats are modelled as `List ℚ` (the claims
  under scrutiny are about which linear combinations the BLAS calls
  build, not about rounding);
* `cublasSaxpy` / `cudaMemset` become `saxpy` / `memsetZero`;
* `TrainingContext::UpdateLocalWeights` and
  `TrainingContext::UpdateGlobalWeights` become pure state
  transformers on records holding the per-tensor buffer groups;
* the MPI fan-out / residual-collection loops of `main` are modelled by
  the lists of loop rounds in which a send or a receive is executed;
* `ConvBiasLayer` / `FullyConnectedLayer` and their `FromFile` /
  `ToFile` members are embedded together with a small file-system model
  (`FS`);
* the early exit-code logic of `main` becomes `mainEarlyExit`;
* the learning-rate computation of the training loop becomes
  `runTraining`, parameterised over an abstract `pow` function.
-/

/-- `cublasSaxpy(handle, n, &a, x, 1, y, 1)`: `y ← a·x + y` on the first
`n` elements, later elements of `y` untouched. -/
def saxpy (n : ℕ) (a : ℚ) (x y : List ℚ) : List ℚ :=
  (List.zipWith (fun xi yi => a * xi + yi) (x.take n) (y.take n)) ++ y.drop n

/-- `cudaMemset(buf, 0, n * sizeof(float))`: zero the first `n` elements. -/
def memsetZero (n : ℕ) (y : List ℚ) : List ℚ :=
  List.replicate (min n y.length) 0 ++ y.drop n

/-- Three-list pointwise combination, used to state elementwise update laws. -/
def zipWith3 (f : ℚ → ℚ → ℚ → ℚ) : List ℚ → List ℚ → List ℚ → List ℚ
  | a :: as, b :: bs, c :: cs => f a b c :: zipWith3 f as bs cs
  | _, _, _ => []

/-- The index list `[1, 2, ..., n]` of the C loop `for (int i = 1; i <= n; i++)`. -/
def rangeFromOne (n : ℕ) : List ℕ :=
  (List.range n).map (fun i => i + 1)

/-! ### Batch fan-out and residual collection loops (`main`, the two
`for(int i = 1; i <= rank; i++)` loops of the training iteration) -/

/-- Worker ranks the process with rank `rank` sends a mini-batch
(image slice plus label slice) to during one iteration's fan-out loop:
the loop runs `i = 1 .. rank` and the send is guarded by `rank == 0`. -/
def fanoutSendTargets (rank : ℕ) : List ℕ :=
  (rangeFromOne rank).filter (fun _ => rank == 0)

/-- Loop rounds in which the process with rank `rank` executes the
mini-batch receive (guarded by `rank == i`) during the fan-out loop. -/
def fanoutRecvRounds (rank : ℕ) : List ℕ :=
  (rangeFromOne rank).filter (fun i => rank == i)

/-- Loop rounds in which the process with rank `rank` sends its dual
residual tensors to rank 0 during the residual-collection loop
(`for(int i = 1; i <= rank; i++)`, send guarded by `rank == i`). -/
def residualSendRounds (rank : ℕ) : List ℕ :=
  (rangeFromOne rank).filter (fun i => rank == i)

/-- Worker ranks the process with rank `rank` receives dual residuals
from (and for each of which it applies a global update) during the
residual-collection loop; the receive is guarded by `rank == 0`. -/
def residualRecvSources (rank : ℕ) : List ℕ :=
  (rangeFromOne rank).filter (fun _ => rank == 0)

/-! ### Layer descriptors and weight files -/

/-- `ConvBiasLayer` of `lenet.cpp`: a convolution layer with bias.
The constructor below (`ConvBiasLayer.make`) mirrors the C++ constructor. -/
structure ConvBiasLayer where
  in_channels : ℕ
  out_channels : ℕ
  kernel_size : ℕ
  in_width : ℕ
  in_height : ℕ
  out_width : ℕ
  out_height : ℕ
  pconv : List ℚ
  pbias : List ℚ

/-- The `ConvBiasLayer(in_channels_, out_channels_, kernel_size_, in_w_, in_h_)`
constructor: derived dims `out = in - kernel + 1`, weight buffer of
`in*k*k*out` elements, bias buffer of `out` elements (value-initialised). -/
def ConvBiasLayer.make (in_channels_ out_channels_ kernel_size_ in_w_ in_h_ : ℕ) :
    ConvBiasLayer :=
  { in_channels := in_channels_
    out_channels := out_channels_
    kernel_size := kernel_size_
    in_width := in_w_
    in_height := in_h_
    out_width := in_w_ - kernel_size_ + 1
    out_height := in_h_ - kernel_size_ + 1
    pconv := List.replicate (in_channels_ * kernel_size_ * kernel_size_ * out_channels_) 0
    pbias := List.replicate out_channels_ 0 }

/-- The integer division `dim / stride` that `main` uses for every pooled
dimension (`conv1.out_width / pool1.stride`, `conv2.out_height / pool2.stride`,
...): C++ `int` division on non-negative values. -/
def poolOutDim (inDim stride : ℕ) : ℕ :=
  inDim / stride

/-- `FullyConnectedLayer` of `lenet.cpp`. -/
structure FullyConnectedLayer where
  inputs : ℕ
  outputs : ℕ
  pneurons : List ℚ
  pbias : List ℚ

/-- A file system for the weight-persistence model: file contents plus
whether `fopen(..., "wb")` succeeds for a name. -/
structure FS where
  contents : String → Option (List ℚ)
  writable : String → Bool

/-- Overwrite one file. -/
def fsWrite (fs : FS) (name : String) (data : List ℚ) : FS :=
  { fs with contents := fun n => if n = name then some data else fs.contents n }

/-- `fread(dst, sizeof(float), count, fp)`: overwrite the first
`min count file.length` elements of `dst` with the file's leading
elements; the remainder of `dst` keeps its prior contents. -/
def fread (dst : List ℚ) (count : ℕ) (file : List ℚ) : List ℚ :=
  file.take count ++ dst.drop (min count file.length)

/-- `ConvBiasLayer::FromFile`: read `<fileprefix>.bin` into `pconv`,
then `<fileprefix>.bias.bin` into `pbias`; report `false` as soon as a
file is missing (buffers already read stay overwritten). -/
def ConvBiasLayer.FromFile (l : ConvBiasLayer) (fpre : String) (fs : FS) :
    Bool × ConvBiasLayer :=
  match fs.contents (fpre ++ ".bin") with
  | none => (false, l)
  | some w =>
    let l1 := { l with
      pconv := fread l.pconv
        (l.in_channels * l.out_channels * l.kernel_size * l.kernel_size) w }
    match fs.contents (fpre ++ ".bias.bin") with
    | none => (false, l1)
    | some b => (true, { l1 with pbias := fread l1.pbias l.out_channels b })

/-- `ConvBiasLayer::ToFile`: write `<fileprefix>.bin` then
`<fileprefix>.bias.bin`; `exit(2)` (modelled as `Except.error 2`) when a
file cannot be opened for writing. -/
def ConvBiasLayer.ToFile (l : ConvBiasLayer) (fpre : String) (fs : FS) :
    Except ℕ FS :=
  if fs.writable (fpre ++ ".bin") = true then
    let fs1 := fsWrite fs (fpre ++ ".bin")
      (l.pconv.take (l.in_channels * l.out_channels * l.kernel_size * l.kernel_size))
    if fs1.writable (fpre ++ ".bias.bin") = true then
      Except.ok (fsWrite fs1 (fpre ++ ".bias.bin") (l.pbias.take l.out_channels))
    else Except.error 2
  else Except.error 2

/-- `FullyConnectedLayer::FromFile`. -/
def FullyConnectedLayer.FromFile (l : FullyConnectedLayer) (fpre : String) (fs : FS) :
    Bool × FullyConnectedLayer :=
  match fs.contents (fpre ++ ".bin") with
  | none => (false, l)
  | some w =>
    let l1 := { l with pneurons := fread l.pneurons (l.inputs * l.outputs) w }
    match fs.contents (fpre ++ ".bias.bin") with
    | none => (false, l1)
    | some b => (true, { l1 with pbias := fread l1.pbias l.outputs b })

/-- `FullyConnectedLayer::ToFile`. -/
def FullyConnectedLayer.ToFile (l : FullyConnectedLayer) (fpre : String) (fs : FS) :
    Except ℕ FS :=
  if fs.writable (fpre ++ ".bin") = true then
    let fs1 := fsWrite fs (fpre ++ ".bin") (l.pneurons.take (l.inputs * l.outputs))
    if fs1.writable (fpre ++ ".bias.bin") = true then
      Except.ok (fsWrite fs1 (fpre ++ ".bias.bin") (l.pbias.take l.outputs))
    else Except.error 2
  else Except.error 2

/-! ### Helper lemmas about the buffer primitives -/

theorem saxpy_full (n : ℕ) (a : ℚ) (x y : List ℚ)
    (hx : x.length = n) (hy : y.length = n) :
    saxpy n a x y = List.zipWith (fun u v => a * u + v) x y := by
  subst hy
  unfold saxpy
  rw [List.take_of_length_le (le_of_eq hx), List.take_length, List.drop_length,
    List.append_nil]

theorem memsetZero_full (n : ℕ) (y : List ℚ) (hy : y.length = n) :
    memsetZero n y = List.replicate n 0 := by
  subst hy
  unfold memsetZero
  rw [min_self, List.drop_length, List.append_nil]

/-- C1: the batch fan-out loop bound is the process's own rank, so the
coordinator (rank 0) executes zero sends — no worker is served —
while every worker rank still executes exactly one matching receive
round.  This contradicts the claim that each worker is served exactly
once per iteration. -/
theorem fanout_coordinator_sends_nothing :
    fanoutSendTargets 0 = [] ∧ fanoutSendTargets 3 = [] ∧
    fanoutRecvRounds 1 = [1] ∧ fanoutRecvRounds 2 = [2] ∧ fanoutRecvRounds 3 = [3] := by
  decide

/-- C6: every convolution layer's derived output dimension is
`in_dim − kernel_size + 1` in both width and height, and every pooled
dimension is `⌊in_dim / stride⌋`, for all valid shapes. -/
theorem conv_pool_output_dims (ic oc k w h s : ℕ)
    (hkw : k ≤ w) (hkh : k ≤ h) (hs : 0 < s) :
    ((ConvBiasLayer.make ic oc k w h).out_width : ℤ) = (w : ℤ) - (k : ℤ) + 1 ∧
    ((ConvBiasLayer.make ic oc k w h).out_height : ℤ) = (h : ℤ) - (k : ℤ) + 1 ∧
    poolOutDim (ConvBiasLayer.make ic oc k w h).out_width s =
      Nat.floor (((ConvBiasLayer.make ic oc k w h).out_width : ℚ) / (s : ℚ)) ∧
    poolOutDim (ConvBiasLayer.make ic oc k w h).out_height s =
      Nat.floor (((ConvBiasLayer.make ic oc k w h).out_height : ℚ) / (s : ℚ)) := by
  refine ⟨?_, ?_, ?_, ?_⟩
  · show ((w - k + 1 : ℕ) : ℤ) = (w : ℤ) - (k : ℤ) + 1
    omega
  · show ((h - k + 1 : ℕ) : ℤ) = (h : ℤ) - (k : ℤ) + 1
    omega
  · exact (Nat.floor_div_eq_div (α := ℚ) _ s).symm
  · exact (Nat.floor_div_eq_div (α := ℚ) _ s).symm

/-- C6 witness: the actual first layer (1 input channel, 20 output
channels, kernel 5, 28×28 input, pool stride 2). -/
theorem conv_pool_output_dims_wit :
    (5 ≤ 28 ∧ 0 < 2) ∧
    (((ConvBiasLayer.make 1 20 5 28 28).out_width : ℤ) = (28 : ℤ) - (5 : ℤ) + 1 ∧
     ((ConvBiasLayer.make 1 20 5 28 28).out_height : ℤ) = (28 : ℤ) - (5 : ℤ) + 1 ∧
     poolOutDim (ConvBiasLayer.make 1 20 5 28 28).out_width 2 =
       Nat.floor (((ConvBiasLayer.make 1 20 5 28 28).out_width : ℚ) / (2 : ℚ)) ∧
     poolOutDim (ConvBiasLayer.make 1 20 5 28 28).out_height 2 =
       Nat.floor (((ConvBiasLayer.make 1 20 5 28 28).out_height : ℚ) / (2 : ℚ))) :=
  ⟨⟨by decide, by decide⟩,
   conv_pool_output_dims 1 20 5 28 28 2 (by decide) (by decide) (by decide)⟩

/-! ### The consensus update (`TrainingContext::UpdateLocalWeights`,
`TrainingContext::UpdateGlobalWeights`) -/

/-- The per-tensor element counts `conv1.pconv.size()`, `conv1.pbias.size()`,
..., passed to every `cublasSaxpy`/`cudaMemset` call. -/
structure Sizes where
  c1 : ℕ
  c1b : ℕ
  c2 : ℕ
  c2b : ℕ
  f1 : ℕ
  f1b : ℕ
  f2 : ℕ
  f2b : ℕ

/-- The buffers a worker touches in `UpdateLocalWeights`, with the
roles they have at the call site in `main`:
`gp*` = global weights, `gdp*` = dual-residual buffers,
`p*` = local weights, `g*` = gradients. -/
structure LocalState where
  gpconv1 : List ℚ
  gpconv1bias : List ℚ
  gpconv2 : List ℚ
  gpconv2bias : List ℚ
  gpfc1 : List ℚ
  gpfc1bias : List ℚ
  gpfc2 : List ℚ
  gpfc2bias : List ℚ
  gdpconv1 : List ℚ
  gdpconv1bias : List ℚ
  gdpconv2 : List ℚ
  gdpconv2bias : List ℚ
  gdpfc1 : List ℚ
  gdpfc1bias : List ℚ
  gdpfc2 : List ℚ
  gdpfc2bias : List ℚ
  pconv1 : List ℚ
  pconv1bias : List ℚ
  pconv2 : List ℚ
  pconv2bias : List ℚ
  pfc1 : List ℚ
  pfc1bias : List ℚ
  pfc2 : List ℚ
  pfc2bias : List ℚ
  gconv1 : List ℚ
  gconv1bias : List ℚ
  gconv2 : List ℚ
  gconv2bias : List ℚ
  gfc1 : List ℚ
  gfc1bias : List ℚ
  gfc2 : List ℚ
  gfc2bias : List ℚ

/-- `TrainingContext::UpdateLocalWeights`, transcribed saxpy by saxpy in
source order.  Note the source's own quirks, kept verbatim:
`minus_rho_alpha` is assigned `rho_alpha` (no negation); the conv1
weight block's final saxpy reads `gpconv1` (global weights) rather than
`gconv1`; the conv2 bias block's second dual saxpy reads `gpconv2`
(the conv2 weight tensor); the fc1 block memsets `gfc1` (the gradient)
rather than `gdpfc1` (the dual buffer). -/
def UpdateLocalWeights (learning_rate rho : ℚ) (sz : Sizes) (s : LocalState) :
    LocalState :=
  let alpha := -learning_rate
  let rho_alpha := -(rho * alpha)
  let minus_rho_alpha := rho_alpha
  let minus_one : ℚ := -1
  -- Conv1
  let gdpconv1 := memsetZero sz.c1 s.gdpconv1
  let gdpconv1 := saxpy sz.c1 rho_alpha s.pconv1 gdpconv1
  let gdpconv1 := saxpy sz.c1 minus_rho_alpha s.gpconv1 gdpconv1
  let pconv1 := saxpy sz.c1 minus_one gdpconv1 s.pconv1
  let pconv1 := saxpy sz.c1 alpha s.gpconv1 pconv1
  -- Conv1 bias
  let gdpconv1bias := memsetZero sz.c1b s.gdpconv1bias
  let gdpconv1bias := saxpy sz.c1b rho_alpha s.pconv1bias gdpconv1bias
  let gdpconv1bias := saxpy sz.c1b minus_rho_alpha s.gpconv1bias gdpconv1bias
  let pconv1bias := saxpy sz.c1b minus_one gdpconv1bias s.pconv1bias
  let pconv1bias := saxpy sz.c1b alpha s.gconv1bias pconv1bias
  -- Conv2
  let gdpconv2 := memsetZero sz.c2 s.gdpconv2
  let gdpconv2 := saxpy sz.c2 rho_alpha s.pconv2 gdpconv2
  let gdpconv2 := saxpy sz.c2 minus_rho_alpha s.gpconv2 gdpconv2
  let pconv2 := saxpy sz.c2 minus_one gdpconv2 s.pconv2
  let pconv2 := saxpy sz.c2 alpha s.gconv2 pconv2
  -- Conv2 bias
  let gdpconv2bias := memsetZero sz.c2b s.gdpconv2bias
  let gdpconv2bias := saxpy sz.c2b rho_alpha s.pconv2bias gdpconv2bias
  let gdpconv2bias := saxpy sz.c2b minus_rho_alpha s.gpconv2 gdpconv2bias
  let pconv2bias := saxpy sz.c2b minus_one gdpconv2bias s.pconv2bias
  let pconv2bias := saxpy sz.c2b alpha s.gconv2bias pconv2bias
  -- Fully connected 1
  let gfc1 := memsetZero sz.f1 s.gfc1
  let gdpfc1 := saxpy sz.f1 rho_alpha s.pfc1 s.gdpfc1
  let gdpfc1 := saxpy sz.f1 minus_rho_alpha s.gpfc1 gdpfc1
  let pfc1 := saxpy sz.f1 minus_one gdpfc1 s.pfc1
  let pfc1 := saxpy sz.f1 alpha gfc1 pfc1
  -- Fully connected 1 bias
  let gdpfc1bias := memsetZero sz.f1b s.gdpfc1bias
  let gdpfc1bias := saxpy sz.f1b rho_alpha s.pfc1bias gdpfc1bias
  let gdpfc1bias := saxpy sz.f1b minus_rho_alpha s.gpfc1bias gdpfc1bias
  let pfc1bias := saxpy sz.f1b minus_one gdpfc1bias s.pfc1bias
  let pfc1bias := saxpy sz.f1b alpha s.gfc1bias pfc1bias
  -- Fully connected 2
  let gdpfc2 := memsetZero sz.f2 s.gdpfc2
  let gdpfc2 := saxpy sz.f2 rho_alpha s.pfc2 gdpfc2
  let gdpfc2 := saxpy sz.f2 minus_rho_alpha s.gpfc2 gdpfc2
  let pfc2 := saxpy sz.f2 minus_one gdpfc2 s.pfc2
  let pfc2 := saxpy sz.f2 alpha s.gfc2 pfc2
  -- Fully connected 2 bias
  let gdpfc2bias := memsetZero sz.f2b s.gdpfc2bias
  let gdpfc2bias := saxpy sz.f2b rho_alpha s.pfc2bias gdpfc2bias
  let gdpfc2bias := saxpy sz.f2b minus_rho_alpha s.gpfc2bias gdpfc2bias
  let pfc2bias := saxpy sz.f2b minus_one gdpfc2bias s.pfc2bias
  let pfc2bias := saxpy sz.f2b alpha s.gfc2bias pfc2bias
  { s with
    gdpconv1 := gdpconv1, gdpconv1bias := gdpconv1bias,
    gdpconv2 := gdpconv2, gdpconv2bias := gdpconv2bias,
    gdpfc1 := gdpfc1, gdpfc1bias := gdpfc1bias,
    gdpfc2 := gdpfc2, gdpfc2bias := gdpfc2bias,
    pconv1 := pconv1, pconv1bias := pconv1bias,
    pconv2 := pconv2, pconv2bias := pconv2bias,
    pfc1 := pfc1, pfc1bias := pfc1bias,
    pfc2 := pfc2, pfc2bias := pfc2bias,
    gfc1 := gfc1 }

/-- The coordinator-side buffers of `UpdateGlobalWeights`: at the call
site the `p*` slots carry the global weights and the `g*` slots carry
the dual residuals just received from a worker. -/
structure GlobalState where
  pconv1 : List ℚ
  pconv1bias : List ℚ
  pconv2 : List ℚ
  pconv2bias : List ℚ
  pfc1 : List ℚ
  pfc1bias : List ℚ
  pfc2 : List ℚ
  pfc2bias : List ℚ
  gconv1 : List ℚ
  gconv1bias : List ℚ
  gconv2 : List ℚ
  gconv2bias : List ℚ
  gfc1 : List ℚ
  gfc1bias : List ℚ
  gfc2 : List ℚ
  gfc2bias : List ℚ

/-- `TrainingContext::UpdateGlobalWeights`: `p ← p + learning_rate · g`
for every tensor, where `g` holds a worker's dual residuals. -/
def UpdateGlobalWeights (learning_rate : ℚ) (sz : Sizes) (s : GlobalState) :
    GlobalState :=
  let alpha := learning_rate
  { s with
    pconv1 := saxpy sz.c1 alpha s.gconv1 s.pconv1
    pconv1bias := saxpy sz.c1b alpha s.gconv1bias s.pconv1bias
    pconv2 := saxpy sz.c2 alpha s.gconv2 s.pconv2
    pconv2bias := saxpy sz.c2b alpha s.gconv2bias s.pconv2bias
    pfc1 := saxpy sz.f1 alpha s.gfc1 s.pfc1
    pfc1bias := saxpy sz.f1b alpha s.gfc1bias s.pfc1bias
    pfc2 := saxpy sz.f2 alpha s.gfc2 s.pfc2
    pfc2bias := saxpy sz.f2b alpha s.gfc2bias s.pfc2bias }

/-- One worker's dual residual tensors as received by the coordinator. -/
structure DualPack where
  dconv1 : List ℚ
  dconv1bias : List ℚ
  dconv2 : List ℚ
  dconv2bias : List ℚ
  dfc1 : List ℚ
  dfc1bias : List ℚ
  dfc2 : List ℚ
  dfc2bias : List ℚ

/-- The `cudaMemcpy` of a received residual pack into the `g*` buffers
before the coordinator calls `UpdateGlobalWeights`. -/
def installDuals (d : DualPack) (s : GlobalState) : GlobalState :=
  { s with
    gconv1 := d.dconv1, gconv1bias := d.dconv1bias,
    gconv2 := d.dconv2, gconv2bias := d.dconv2bias,
    gfc1 := d.dfc1, gfc1bias := d.dfc1bias,
    gfc2 := d.dfc2, gfc2bias := d.dfc2bias }

/-- The residual-collection loop as executed by the process with rank
`rank`: for each worker index it receives from (per
`residualRecvSources`), install that worker's duals and apply
`UpdateGlobalWeights`. -/
def coordGlobalAfterCollect (lr : ℚ) (sz : Sizes) (rank : ℕ)
    (dualOf : ℕ → DualPack) (s : GlobalState) : GlobalState :=
  (residualRecvSources rank).foldl
    (fun st i => UpdateGlobalWeights lr sz (installDuals (dualOf i) st)) s

/-- C4: the residual-collection loop also iterates `i = 1 .. rank`, so
the coordinator (rank 0) receives zero residual packs and applies zero
global updates — its global weights are unchanged in every iteration —
even though every worker rank executes exactly one send round. -/
theorem residual_collection_coordinator_never_updates :
    (∀ (lr : ℚ) (sz : Sizes) (dualOf : ℕ → DualPack) (s : GlobalState),
      coordGlobalAfterCollect lr sz 0 dualOf s = s) ∧
    residualRecvSources 0 = [] ∧
    residualSendRounds 1 = [1] ∧ residualSendRounds 2 = [2] := by
  refine ⟨fun lr sz dualOf s => rfl, by decide, by decide, by decide⟩

/-! ### Concrete states for the update-formula claims -/

/-- All element counts 1: every tensor has a single element. -/
def sz1 : Sizes :=
  { c1 := 1, c1b := 1, c2 := 1, c2b := 1, f1 := 1, f1b := 1, f2 := 1, f2b := 1 }

/-- A `LocalState` whose 32 buffers are all the singleton `[v]`. -/
def constState (v : ℚ) : LocalState :=
  { gpconv1 := [v], gpconv1bias := [v], gpconv2 := [v], gpconv2bias := [v]
    gpfc1 := [v], gpfc1bias := [v], gpfc2 := [v], gpfc2bias := [v]
    gdpconv1 := [v], gdpconv1bias := [v], gdpconv2 := [v], gdpconv2bias := [v]
    gdpfc1 := [v], gdpfc1bias := [v], gdpfc2 := [v], gdpfc2bias := [v]
    pconv1 := [v], pconv1bias := [v], pconv2 := [v], pconv2bias := [v]
    pfc1 := [v], pfc1bias := [v], pfc2 := [v], pfc2bias := [v]
    gconv1 := [v], gconv1bias := [v], gconv2 := [v], gconv2bias := [v]
    gfc1 := [v], gfc1bias := [v], gfc2 := [v], gfc2bias := [v] }

/-- Input for C2: globals differ from gradients on conv1, fc1 has a
non-zero gradient; everything else is zero. -/
def sC2 : LocalState :=
  { constState 0 with gpconv1 := [1], gfc1 := [7] }

/-- C2: with `rho = 0` one application of `UpdateLocalWeights` is NOT
plain SGD: the conv1 weight tensor moves by `−lr·global` (the final
conv1 saxpy reads `gpconv1`, not `gconv1`), and the fc1 weight tensor
ignores its gradient entirely (the fc1 block memsets the gradient
buffer `gfc1` before using it). -/
theorem rho_zero_update_is_not_plain_sgd :
    (UpdateLocalWeights 1 0 sz1 sC2).pconv1 ≠
      List.zipWith (fun l gr => l - 1 * gr) sC2.pconv1 sC2.gconv1 ∧
    (UpdateLocalWeights 1 0 sz1 sC2).pfc1 ≠
      List.zipWith (fun l gr => l - 1 * gr) sC2.pfc1 sC2.gfc1 ∧
    (UpdateLocalWeights 1 0 sz1 sC2).pconv1 = [-1] ∧
    (UpdateLocalWeights 1 0 sz1 sC2).pfc1 = [0] := by
  norm_num [UpdateLocalWeights, saxpy, memsetZero, sC2, constState, sz1]

/-- Input for C5 (baseline): everything zero. -/
def s5a : LocalState := constState 0

/-- Input for C5: identical to `s5a` except for the conv2 weight
global tensor. -/
def s5b : LocalState := { constState 0 with gpconv2 := [9] }

/-- C5: the conv2 bias dual residual is blended with the conv2 weight
tensor: two states that agree on every conv2-bias-related buffer
(local, global, gradient, prior dual) but differ in the conv2 weight
global tensor `gpconv2` produce different conv2 bias dual residuals. -/
theorem conv2_bias_dual_mixed_with_conv2_weights :
    s5a.pconv2bias = s5b.pconv2bias ∧
    s5a.gpconv2bias = s5b.gpconv2bias ∧
    s5a.gconv2bias = s5b.gconv2bias ∧
    s5a.gdpconv2bias = s5b.gdpconv2bias ∧
    (UpdateLocalWeights 1 1 sz1 s5a).gdpconv2bias ≠
      (UpdateLocalWeights 1 1 sz1 s5b).gdpconv2bias := by
  norm_num [UpdateLocalWeights, saxpy, memsetZero, s5a, s5b, constState, sz1]

/-- The dual residual as the spec's words describe it: the ρ-scaled
difference between local and global weights combined with the ρ-scaled
gradient of opposite sign (scaled like the code by the learning rate;
at the counterexample below local = global and gradient = 0, so any
combination of a multiple of `local − global` with a multiple of the
gradient is zero regardless of the scaling convention). -/
def specDualResidual (rho lr : ℚ) (localW globalW grad : List ℚ) : List ℚ :=
  zipWith3 (fun l g gr => rho * lr * (l - g) - rho * lr * gr) localW globalW grad

/-- Input for C3: fc2 local weight = global weight = 1, gradient 0. -/
def sC3 : LocalState :=
  { constState 0 with pfc2 := [1], gpfc2 := [1] }

/-- C3 counterexample: at `local = global = [1]`, `g = [0]`, `ρ = lr = 1`
the code's fc2 dual residual is `[2]` — local and global enter with the
SAME sign (`minus_rho_alpha` is assigned `rho_alpha` un-negated) and no
gradient term enters — while the claimed formula yields `[0]`. -/
theorem dual_residual_not_spec_formula :
    (UpdateLocalWeights 1 1 sz1 sC3).gdpfc2 = [2] ∧
    specDualResidual 1 1 sC3.pfc2 sC3.gpfc2 sC3.gfc2 = [0] ∧
    (UpdateLocalWeights 1 1 sz1 sC3).gdpfc2 ≠
      specDualResidual 1 1 sC3.pfc2 sC3.gpfc2 sC3.gfc2 ∧
    (UpdateLocalWeights 1 1 sz1 sC3).pfc2 = [-1] := by
  norm_num [UpdateLocalWeights, saxpy, memsetZero, sC3, constState, sz1,
    specDualResidual, zipWith3]

/-! ### The regular update-block algebra (for the amended C3 statement) -/

theorem dual_zip (c : ℚ) : ∀ (p gp : List ℚ) (n : ℕ),
    p.length = n → gp.length = n →
    List.zipWith (fun u v => c * u + v) gp
      (List.zipWith (fun u v => c * u + v) p (List.replicate n 0)) =
    List.zipWith (fun l gl => c * l + c * gl) p gp := by
  intro p
  induction p with
  | nil =>
    intro gp n hp hgp
    have hn : n = 0 := by simpa using hp.symm
    subst hn
    have : gp = [] := List.length_eq_zero.mp hgp
    subst this
    simp
  | cons a as ih =>
    intro gp n hp hgp
    cases gp with
    | nil => simp at hp hgp; omega
    | cons b bs =>
      cases n with
      | zero => simp at hp
      | succ m =>
        simp only [List.replicate_succ, List.zipWith_cons_cons]
        refine congrArg₂ _ (by ring) ?_
        exact ih bs m (by simpa using hp) (by simpa using hgp)

theorem local_zip (lr : ℚ) : ∀ (p g du : List ℚ) (n : ℕ),
    p.length = n → g.length = n → du.length = n →
    List.zipWith (fun u v => -lr * u + v) g
      (List.zipWith (fun u v => (-1 : ℚ) * u + v) du p) =
    zipWith3 (fun l dl gr => l - dl - lr * gr) p du g := by
  intro p
  induction p with
  | nil =>
    intro g du n hp hg hdu
    have hn : n = 0 := by simpa using hp.symm
    subst hn
    have hg2 : g = [] := List.length_eq_zero.mp hg
    have hdu2 : du = [] := List.length_eq_zero.mp hdu
    subst hg2; subst hdu2
    simp [zipWith3]
  | cons a as ih =>
    intro g du n hp hg hdu
    cases g with
    | nil => simp at hp hg; omega
    | cons b bs =>
      cases du with
      | nil => simp at hp hdu; omega
      | cons d ds =>
        cases n with
        | zero => simp at hp
        | succ m =>
          simp only [List.zipWith_cons_cons, zipWith3]
          refine congrArg₂ _ (by ring) ?_
          exact ih bs ds m (by simpa using hp) (by simpa using hg) (by simpa using hdu)

/-- A regular dual-residual block of `UpdateLocalWeights` (memset to
zero, then the two accumulating saxpys) computes
`d = ρ·lr·local + ρ·lr·global` elementwise. -/
theorem regular_block_dual (lr rho : ℚ) (n : ℕ) (p gp d : List ℚ)
    (hp : p.length = n) (hgp : gp.length = n) (hd : d.length = n) :
    saxpy n (-(rho * -lr)) gp (saxpy n (-(rho * -lr)) p (memsetZero n d)) =
      List.zipWith (fun l gl => rho * lr * l + rho * lr * gl) p gp := by
  have hc : -(rho * -lr) = rho * lr := by ring
  rw [hc, memsetZero_full n d hd,
    saxpy_full n (rho * lr) p (List.replicate n 0) hp (List.length_replicate n 0),
    saxpy_full n (rho * lr) gp _ hgp (by simp [hp])]
  exact dual_zip (rho * lr) p gp n hp hgp

/-- A regular local-weight block of `UpdateLocalWeights` (subtract the
dual, then subtract `lr` times the gradient) computes
`local ← local − d − lr·g` elementwise. -/
theorem regular_block_local (lr rho : ℚ) (n : ℕ) (p gp g d : List ℚ)
    (hp : p.length = n) (hgp : gp.length = n) (hg : g.length = n) (hd : d.length = n) :
    saxpy n (-lr) g (saxpy n (-1)
        (saxpy n (-(rho * -lr)) gp (saxpy n (-(rho * -lr)) p (memsetZero n d))) p) =
      zipWith3 (fun l dl gr => l - dl - lr * gr) p
        (List.zipWith (fun l gl => rho * lr * l + rho * lr * gl) p gp) g := by
  rw [regular_block_dual lr rho n p gp d hp hgp hd]
  have hdu : (List.zipWith (fun l gl => rho * lr * l + rho * lr * gl) p gp).length = n := by
    simp [hp, hgp]
  rw [saxpy_full n (-1) _ p hdu hp, saxpy_full n (-lr) g _ hg (by simp [hdu, hp])]
  exact local_zip lr p g _ n hp hg hdu

/-- C3 (amended): for each tensor whose update block follows the regular
pattern (conv1 bias, conv2 weights, fc1 bias, fc2 weights, fc2 bias) the
dual residual is `d = ρ·lr·local + ρ·lr·global` — local and global enter
with the SAME coefficient and the gradient does not enter `d` — and the
local weights become `local − d − lr·g` elementwise. -/
theorem dual_residual_and_local_update_formula
    (lr rho : ℚ) (sz : Sizes) (s : LocalState)
    (h1p : s.pconv1bias.length = sz.c1b) (h1g : s.gpconv1bias.length = sz.c1b)
    (h1r : s.gconv1bias.length = sz.c1b) (h1d : s.gdpconv1bias.length = sz.c1b)
    (h2p : s.pconv2.length = sz.c2) (h2g : s.gpconv2.length = sz.c2)
    (h2r : s.gconv2.length = sz.c2) (h2d : s.gdpconv2.length = sz.c2)
    (h3p : s.pfc1bias.length = sz.f1b) (h3g : s.gpfc1bias.length = sz.f1b)
    (h3r : s.gfc1bias.length = sz.f1b) (h3d : s.gdpfc1bias.length = sz.f1b)
    (h4p : s.pfc2.length = sz.f2) (h4g : s.gpfc2.length = sz.f2)
    (h4r : s.gfc2.length = sz.f2) (h4d : s.gdpfc2.length = sz.f2)
    (h5p : s.pfc2bias.length = sz.f2b) (h5g : s.gpfc2bias.length = sz.f2b)
    (h5r : s.gfc2bias.length = sz.f2b) (h5d : s.gdpfc2bias.length = sz.f2b) :
    ((UpdateLocalWeights lr rho sz s).gdpconv1bias =
        List.zipWith (fun l gl => rho * lr * l + rho * lr * gl)
          s.pconv1bias s.gpconv1bias ∧
      (UpdateLocalWeights lr rho sz s).pconv1bias =
        zipWith3 (fun l dl gr => l - dl - lr * gr) s.pconv1bias
          (List.zipWith (fun l gl => rho * lr * l + rho * lr * gl)
            s.pconv1bias s.gpconv1bias) s.gconv1bias) ∧
    ((UpdateLocalWeights lr rho sz s).gdpconv2 =
        List.zipWith (fun l gl => rho * lr * l + rho * lr * gl)
          s.pconv2 s.gpconv2 ∧
      (UpdateLocalWeights lr rho sz s).pconv2 =
        zipWith3 (fun l dl gr => l - dl - lr * gr) s.pconv2
          (List.zipWith (fun l gl => rho * lr * l + rho * lr * gl)
            s.pconv2 s.gpconv2) s.gconv2) ∧
    ((UpdateLocalWeights lr rho sz s).gdpfc1bias =
        List.zipWith (fun l gl => rho * lr * l + rho * lr * gl)
          s.pfc1bias s.gpfc1bias ∧
      (UpdateLocalWeights lr rho sz s).pfc1bias =
        zipWith3 (fun l dl gr => l - dl - lr * gr) s.pfc1bias
          (List.zipWith (fun l gl => rho * lr * l + rho * lr * gl)
            s.pfc1bias s.gpfc1bias) s.gfc1bias) ∧
    ((UpdateLocalWeights lr rho sz s).gdpfc2 =
        List.zipWith (fun l gl => rho * lr * l + rho * lr * gl)
          s.pfc2 s.gpfc2 ∧
      (UpdateLocalWeights lr rho sz s).pfc2 =
        zipWith3 (fun l dl gr => l - dl - lr * gr) s.pfc2
          (List.zipWith (fun l gl => rho * lr * l + rho * lr * gl)
            s.pfc2 s.gpfc2) s.gfc2) ∧
    ((UpdateLocalWeights lr rho sz s).gdpfc2bias =
        List.zipWith (fun l gl => rho * lr * l + rho * lr * gl)
          s.pfc2bias s.gpfc2bias ∧
      (UpdateLocalWeights lr rho sz s).pfc2bias =
        zipWith3 (fun l dl gr => l - dl - lr * gr) s.pfc2bias
          (List.zipWith (fun l gl => rho * lr * l + rho * lr * gl)
            s.pfc2bias s.gpfc2bias) s.gfc2bias) := by
  refine ⟨⟨?_, ?_⟩, ⟨?_, ?_⟩, ⟨?_, ?_⟩, ⟨?_, ?_⟩, ⟨?_, ?_⟩⟩
  · exact regular_block_dual lr rho sz.c1b _ _ _ h1p h1g h1d
  · exact regular_block_local lr rho sz.c1b _ _ _ _ h1p h1g h1r h1d
  · exact regular_block_dual lr rho sz.c2 _ _ _ h2p h2g h2d
  · exact regular_block_local lr rho sz.c2 _ _ _ _ h2p h2g h2r h2d
  · exact regular_block_dual lr rho sz.f1b _ _ _ h3p h3g h3d
  · exact regular_block_local lr rho sz.f1b _ _ _ _ h3p h3g h3r h3d
  · exact regular_block_dual lr rho sz.f2 _ _ _ h4p h4g h4d
  · exact regular_block_local lr rho sz.f2 _ _ _ _ h4p h4g h4r h4d
  · exact regular_block_dual lr rho sz.f2b _ _ _ h5p h5g h5d
  · exact regular_block_local lr rho sz.f2b _ _ _ _ h5p h5g h5r h5d

/-- C3 witness: the fc2 weight equations of
`dual_residual_and_local_update_formula` at `lr = 2`, `ρ = 3` on
singleton buffers all equal to 5. -/
theorem dual_residual_and_local_update_formula_wit :
    (UpdateLocalWeights 2 3 sz1 (constState 5)).gdpfc2 =
      List.zipWith (fun l gl => 3 * 2 * l + 3 * 2 * gl)
        (constState 5).pfc2 (constState 5).gpfc2 ∧
    (UpdateLocalWeights 2 3 sz1 (constState 5)).pfc2 =
      zipWith3 (fun l dl gr => l - dl - 2 * gr) (constState 5).pfc2
        (List.zipWith (fun l gl => 3 * 2 * l + 3 * 2 * gl)
          (constState 5).pfc2 (constState 5).gpfc2) (constState 5).gfc2 :=
  (dual_residual_and_local_update_formula 2 3 sz1 (constState 5)
    rfl rfl rfl rfl rfl rfl rfl rfl rfl rfl
    rfl rfl rfl rfl rfl rfl rfl rfl rfl rfl).2.2.2.1

/-! ### Exit codes of `main` -/

/-- The outcomes of the external dataset reads and the device check, in
the order `main` consults them. -/
structure RunInputs where
  trainSizeFirst : ℕ
  trainSizeSecond : ℕ
  testSizeFirst : ℕ
  testSizeSecond : ℕ
  gpuFlag : ℤ
  numGpus : ℤ

/-- The early-exit logic of `main`: `return 1` when the first training
read reports size 0; `return 2` when the second training-set read count
mismatches; `return 3` when the second test-set read count mismatches;
`return 4` when the GPU selector is out of range; otherwise `main`
continues (and returns 0 at the end). -/
def mainEarlyExit (e : RunInputs) : Option ℕ :=
  if e.trainSizeFirst = 0 then some 1
  else if e.trainSizeSecond ≠ e.trainSizeFirst then some 2
  else if e.testSizeSecond ≠ e.testSizeFirst then some 3
  else if e.gpuFlag < 0 ∨ e.numGpus ≤ e.gpuFlag then some 4
  else none

/-- A run whose second test-set read count mismatches the first. -/
def e7 : RunInputs :=
  { trainSizeFirst := 5, trainSizeSecond := 5,
    testSizeFirst := 5, testSizeSecond := 4,
    gpuFlag := 0, numGpus := 1 }

/-- A file system on which no file can be opened for writing. -/
def fsUnwritable : FS :=
  { contents := fun _ => none, writable := fun _ => false }

/-- C7 counterexample: a test-set read-size mismatch exits with code 3,
not 2 as claimed (code 2 is the training-set re-read mismatch), and a
weight save to an unwritable file also exits with code 2, so the
read-size mismatch is not the only source of that code. -/
theorem exit_code_counterexample :
    mainEarlyExit e7 = some 3 ∧ mainEarlyExit e7 ≠ some 2 ∧
    (ConvBiasLayer.make 1 1 1 1 1).ToFile "conv1" fsUnwritable = Except.error 2 := by
  refine ⟨rfl, by decide, rfl⟩

/-- C7 (amended): the exact exit-code mapping — 1 for an empty/unreadable
training set; 2 for a training-set re-read count mismatch; 3 for a
test-set re-read count mismatch; 4 for an invalid device selector; no
early exit otherwise — and a failed weight save always exits with
code 2. -/
theorem exit_code_mapping :
    (∀ e : RunInputs,
      (mainEarlyExit e = some 1 ↔ e.trainSizeFirst = 0) ∧
      (mainEarlyExit e = some 2 ↔
        e.trainSizeFirst ≠ 0 ∧ e.trainSizeSecond ≠ e.trainSizeFirst) ∧
      (mainEarlyExit e = some 3 ↔
        e.trainSizeFirst ≠ 0 ∧ e.trainSizeSecond = e.trainSizeFirst ∧
        e.testSizeSecond ≠ e.testSizeFirst) ∧
      (mainEarlyExit e = some 4 ↔
        e.trainSizeFirst ≠ 0 ∧ e.trainSizeSecond = e.trainSizeFirst ∧
        e.testSizeSecond = e.testSizeFirst ∧
        (e.gpuFlag < 0 ∨ e.numGpus ≤ e.gpuFlag)) ∧
      (mainEarlyExit e = none ↔
        e.trainSizeFirst ≠ 0 ∧ e.trainSizeSecond = e.trainSizeFirst ∧
        e.testSizeSecond = e.testSizeFirst ∧
        ¬(e.gpuFlag < 0 ∨ e.numGpus ≤ e.gpuFlag))) ∧
    (∀ (l : ConvBiasLayer) (fpre : String) (fs : FS),
      l.ToFile fpre fs = Except.error 2 ∨
      ∃ fs2, l.ToFile fpre fs = Except.ok fs2) ∧
    (∀ (l : FullyConnectedLayer) (fpre : String) (fs : FS),
      l.ToFile fpre fs = Except.error 2 ∨
      ∃ fs2, l.ToFile fpre fs = Except.ok fs2) := by
  refine ⟨?_, ?_, ?_⟩
  · intro e
    unfold mainEarlyExit
    split_ifs with h1 h2 h3 h4 <;> simp_all
  · intro l fpre fs
    simp only [ConvBiasLayer.ToFile, fsWrite]
    split
    · split
      · exact Or.inr ⟨_, rfl⟩
      · exact Or.inl rfl
    · exact Or.inl rfl
  · intro l fpre fs
    simp only [FullyConnectedLayer.ToFile, fsWrite]
    split
    · split
      · exact Or.inr ⟨_, rfl⟩
      · exact Or.inl rfl
    · exact Or.inl rfl

/-! ### Weight-file round trip -/

theorem bin_ne_bias (fpre : String) : fpre ++ ".bin" ≠ fpre ++ ".bias.bin" := by
  intro h
  have h2 : (fpre ++ ".bin").data = (fpre ++ ".bias.bin").data :=
    congrArg String.data h
  simp only [String.data_append] at h2
  have h3 := List.append_cancel_left h2
  exact absurd h3 (by decide)

/-- C8: saving any layer (convolution or fully-connected) to the two
flat binary files and reloading from them — into any layer of the same
shape — restores the weight and bias buffers exactly and reports
success. -/
theorem layer_file_roundtrip :
    (∀ (l l2 : ConvBiasLayer) (fpre : String) (fs : FS),
      l2.in_channels = l.in_channels → l2.out_channels = l.out_channels →
      l2.kernel_size = l.kernel_size →
      l.pconv.length = l.in_channels * l.out_channels * l.kernel_size * l.kernel_size →
      l.pbias.length = l.out_channels →
      l2.pconv.length = l.pconv.length → l2.pbias.length = l.pbias.length →
      fs.writable (fpre ++ ".bin") = true →
      fs.writable (fpre ++ ".bias.bin") = true →
      ∃ fs2, l.ToFile fpre fs = Except.ok fs2 ∧
        l2.FromFile fpre fs2 = (true, { l2 with pconv := l.pconv, pbias := l.pbias })) ∧
    (∀ (l l2 : FullyConnectedLayer) (fpre : String) (fs : FS),
      l2.inputs = l.inputs → l2.outputs = l.outputs →
      l.pneurons.length = l.inputs * l.outputs →
      l.pbias.length = l.outputs →
      l2.pneurons.length = l.pneurons.length → l2.pbias.length = l.pbias.length →
      fs.writable (fpre ++ ".bin") = true →
      fs.writable (fpre ++ ".bias.bin") = true →
      ∃ fs2, l.ToFile fpre fs = Except.ok fs2 ∧
        l2.FromFile fpre fs2 =
          (true, { l2 with pneurons := l.pneurons, pbias := l.pbias })) := by
  constructor
  · intro l l2 fpre fs hic hoc hk hwlen hblen h2w h2b hw hb
    have htake1 : l.pconv.take
        (l.in_channels * l.out_channels * l.kernel_size * l.kernel_size) = l.pconv := by
      rw [← hwlen]; exact List.take_length _
    have htake2 : l.pbias.take l.out_channels = l.pbias := by
      rw [← hblen]; exact List.take_length _
    refine ⟨fsWrite (fsWrite fs (fpre ++ ".bin") l.pconv) (fpre ++ ".bias.bin") l.pbias,
      ?_, ?_⟩
    · simp only [ConvBiasLayer.ToFile, fsWrite, hw, hb, if_true, htake1, htake2]
    · have hcw : (fsWrite (fsWrite fs (fpre ++ ".bin") l.pconv)
          (fpre ++ ".bias.bin") l.pbias).contents (fpre ++ ".bin") = some l.pconv := by
        simp [fsWrite, bin_ne_bias fpre]
      have hcb : (fsWrite (fsWrite fs (fpre ++ ".bin") l.pconv)
          (fpre ++ ".bias.bin") l.pbias).contents (fpre ++ ".bias.bin") = some l.pbias := by
        simp [fsWrite]
      have hf1 : fread l2.pconv
          (l2.in_channels * l2.out_channels * l2.kernel_size * l2.kernel_size)
          l.pconv = l.pconv := by
        unfold fread
        rw [hic, hoc, hk, ← hwlen, List.take_length, min_self, ← h2w,
          List.drop_length, List.append_nil]
      have hf2 : fread l2.pbias l2.out_channels l.pbias = l.pbias := by
        unfold fread
        rw [hoc, ← hblen, List.take_length, min_self, ← h2b,
          List.drop_length, List.append_nil]
      unfold ConvBiasLayer.FromFile
      rw [hcw, hcb]
      simp only [hf1, hf2]
  · intro l l2 fpre fs hin hout hwlen hblen h2w h2b hw hb
    have htake1 : l.pneurons.take (l.inputs * l.outputs) = l.pneurons := by
      rw [← hwlen]; exact List.take_length _
    have htake2 : l.pbias.take l.outputs = l.pbias := by
      rw [← hblen]; exact List.take_length _
    refine ⟨fsWrite (fsWrite fs (fpre ++ ".bin") l.pneurons)
      (fpre ++ ".bias.bin") l.pbias, ?_, ?_⟩
    · simp only [FullyConnectedLayer.ToFile, fsWrite, hw, hb, if_true, htake1, htake2]
    · have hcw : (fsWrite (fsWrite fs (fpre ++ ".bin") l.pneurons)
          (fpre ++ ".bias.bin") l.pbias).contents (fpre ++ ".bin") = some l.pneurons := by
        simp [fsWrite, bin_ne_bias fpre]
      have hcb : (fsWrite (fsWrite fs (fpre ++ ".bin") l.pneurons)
          (fpre ++ ".bias.bin") l.pbias).contents (fpre ++ ".bias.bin") = some l.pbias := by
        simp [fsWrite]
      have hf1 : fread l2.pneurons (l2.inputs * l2.outputs) l.pneurons = l.pneurons := by
        unfold fread
        rw [hin, hout, ← hwlen, List.take_length, min_self, ← h2w,
          List.drop_length, List.append_nil]
      have hf2 : fread l2.pbias l2.outputs l.pbias = l.pbias := by
        unfold fread
        rw [hout, ← hblen, List.take_length, min_self, ← h2b,
          List.drop_length, List.append_nil]
      unfold FullyConnectedLayer.FromFile
      rw [hcw, hcb]
      simp only [hf1, hf2]

/-- A 1×1 convolution layer with known weight and bias contents. -/
def lA : ConvBiasLayer :=
  { in_channels := 1, out_channels := 1, kernel_size := 1,
    in_width := 2, in_height := 2, out_width := 2, out_height := 2,
    pconv := [3], pbias := [4] }

/-- Same shape as `lA`, different buffer contents. -/
def lB : ConvBiasLayer :=
  { in_channels := 1, out_channels := 1, kernel_size := 1,
    in_width := 2, in_height := 2, out_width := 2, out_height := 2,
    pconv := [0], pbias := [0] }

/-- A 1×1 fully-connected layer with known contents. -/
def fA : FullyConnectedLayer :=
  { inputs := 1, outputs := 1, pneurons := [5], pbias := [6] }

/-- Same shape as `fA`, different buffer contents. -/
def fB : FullyConnectedLayer :=
  { inputs := 1, outputs := 1, pneurons := [0], pbias := [0] }

/-- An empty, fully writable file system. -/
def fsT : FS :=
  { contents := fun _ => none, writable := fun _ => true }

/-- C8 witness: the round trip on concrete 1×1 layers. -/
theorem layer_file_roundtrip_wit :
    (∃ fs2, lA.ToFile "conv1" fsT = Except.ok fs2 ∧
      lB.FromFile "conv1" fs2 =
        (true, { lB with pconv := lA.pconv, pbias := lA.pbias })) ∧
    (∃ fs2, fA.ToFile "ip1" fsT = Except.ok fs2 ∧
      fB.FromFile "ip1" fs2 =
        (true, { fB with pneurons := fA.pneurons, pbias := fA.pbias })) :=
  ⟨layer_file_roundtrip.1 lA lB "conv1" fsT rfl rfl rfl rfl rfl rfl rfl rfl rfl,
   layer_file_roundtrip.2 fA fB "ip1" fsT rfl rfl rfl rfl rfl rfl rfl rfl⟩

/-! ### Non-atomicity of `FromFile` -/

/-- C10: when the weights file exists but the bias file is missing,
`FromFile` reports failure with the weight buffer already overwritten by
the weights file's contents and the bias buffer untouched; only when the
weights file itself is missing are both buffers left unchanged. -/
theorem fromFile_weights_overwritten_on_missing_bias :
    (∀ (l : ConvBiasLayer) (fpre : String) (fs : FS) (w : List ℚ),
      fs.contents (fpre ++ ".bin") = some w →
      fs.contents (fpre ++ ".bias.bin") = none →
      w.length = l.in_channels * l.out_channels * l.kernel_size * l.kernel_size →
      l.pconv.length = w.length →
      l.FromFile fpre fs = (false, { l with pconv := w })) ∧
    (∀ (l : ConvBiasLayer) (fpre : String) (fs : FS),
      fs.contents (fpre ++ ".bin") = none →
      l.FromFile fpre fs = (false, l)) ∧
    (∀ (l : FullyConnectedLayer) (fpre : String) (fs : FS) (w : List ℚ),
      fs.contents (fpre ++ ".bin") = some w →
      fs.contents (fpre ++ ".bias.bin") = none →
      w.length = l.inputs * l.outputs →
      l.pneurons.length = w.length →
      l.FromFile fpre fs = (false, { l with pneurons := w })) ∧
    (∀ (l : FullyConnectedLayer) (fpre : String) (fs : FS),
      fs.contents (fpre ++ ".bin") = none →
      l.FromFile fpre fs = (false, l)) := by
  refine ⟨?_, ?_, ?_, ?_⟩
  · intro l fpre fs w hcw hcb hwlen hplen
    have hf : fread l.pconv
        (l.in_channels * l.out_channels * l.kernel_size * l.kernel_size) w = w := by
      unfold fread
      rw [← hwlen, List.take_length, min_self, ← hplen,
        List.drop_length, List.append_nil]
    unfold ConvBiasLayer.FromFile
    rw [hcw, hcb]
    simp only [hf]
  · intro l fpre fs hcw
    unfold ConvBiasLayer.FromFile
    rw [hcw]
  · intro l fpre fs w hcw hcb hwlen hplen
    have hf : fread l.pneurons (l.inputs * l.outputs) w = w := by
      unfold fread
      rw [← hwlen, List.take_length, min_self, ← hplen,
        List.drop_length, List.append_nil]
    unfold FullyConnectedLayer.FromFile
    rw [hcw, hcb]
    simp only [hf]
  · intro l fpre fs hcw
    unfold FullyConnectedLayer.FromFile
    rw [hcw]

/-- A file system holding only the weights file `c.bin`. -/
def fsOnlyWeights : FS :=
  { contents := fun n => if n = "c.bin" then some [7] else none,
    writable := fun _ => true }

/-- C10 witness: loading `lA` from a file system with only `c.bin`
present fails after overwriting the weight buffer. -/
theorem fromFile_weights_overwritten_on_missing_bias_wit :
    lA.FromFile "c" fsOnlyWeights = (false, { lA with pconv := [7] }) :=
  fromFile_weights_overwritten_on_missing_bias.1 lA "c" fsOnlyWeights [7]
    (by decide) (by decide) rfl rfl

/-! ### The learning-rate schedule -/

/-- The training loop of `main` restricted to what the learning rate can
possibly depend on: the loop threads an arbitrary state `σ` through an
arbitrary per-iteration update `step` and recomputes
`learningRate = learning_rate * pow(1.0 + lr_gamma * iter, -lr_power)`
from the flag values every iteration.  `powFn` abstracts the C `pow`. -/
def runTrainingAux {σ : Type} (powFn : ℚ → ℚ → ℚ) (base gam pw : ℚ)
    (step : σ → ℚ → σ) : ℕ → ℕ → σ → σ × List ℚ
  | _, 0, s => (s, [])
  | iter, remaining + 1, s =>
    let lr := base * powFn (1 + gam * iter) (-pw)
    let s2 := step s lr
    let rest := runTrainingAux powFn base gam pw step (iter + 1) remaining s2
    (rest.1, lr :: rest.2)

/-- The whole training loop: iterations `0 .. iters − 1`, returning the
final state and the learning rate used in each iteration. -/
def runTraining {σ : Type} (powFn : ℚ → ℚ → ℚ) (base gam pw : ℚ)
    (step : σ → ℚ → σ) (iters : ℕ) (s0 : σ) : σ × List ℚ :=
  runTrainingAux powFn base gam pw step 0 iters s0

theorem runTrainingAux_lr {σ : Type} (powFn : ℚ → ℚ → ℚ) (base gam pw : ℚ)
    (step : σ → ℚ → σ) :
    ∀ (remaining iter : ℕ) (s : σ) (i : ℕ), i < remaining →
      ((runTrainingAux powFn base gam pw step iter remaining s).2).get? i =
        some (base * powFn (1 + gam * (iter + i : ℕ)) (-pw)) := by
  intro remaining
  induction remaining with
  | zero => intro iter s i hi; omega
  | succ r ih =>
    intro iter s i hi
    cases i with
    | zero =>
      simp [runTrainingAux]
    | succ j =>
      have h2 : ((runTrainingAux powFn base gam pw step (iter + 1) r
          (step s (base * powFn (1 + gam * iter) (-pw)))).2).get? j =
          some (base * powFn (1 + gam * ((iter + 1) + j : ℕ)) (-pw)) :=
        ih (iter + 1) _ j (by omega)
      have harg : (iter + 1) + j = iter + (j + 1) := by omega
      rw [harg] at h2
      simpa [runTrainingAux] using h2

/-- C9: the learning rate used in iteration `i` equals
`base · pow(1 + γ·i, −power)`, a function of the fixed flag values and
`i` alone — independent of the state type, the state update, the initial
state and the total iteration count. -/
theorem learning_rate_schedule {σ : Type} (powFn : ℚ → ℚ → ℚ)
    (base gam pw : ℚ) (step : σ → ℚ → σ) (iters : ℕ) (s0 : σ) (i : ℕ)
    (hi : i < iters) :
    ((runTraining powFn base gam pw step iters s0).2).get? i =
      some (base * powFn (1 + gam * (i : ℕ)) (-pw)) := by
  have h := runTrainingAux_lr powFn base gam pw step iters 0 s0 i hi
  simpa [runTraining] using h

/-- C9 witness: iteration 2 of a 4-iteration run over state type `ℚ`
with a multiplicative state update and `powFn a b = a + b`. -/
theorem learning_rate_schedule_wit :
    2 < 4 ∧
    ((runTraining (fun a b => a + b) 2 3 5 (fun s lr : ℚ => s * lr) 4 (7 : ℚ)).2).get? 2 =
      some (2 * ((1 + 3 * ((2 : ℕ) : ℚ)) + (-5))) :=
  ⟨by norm_num,
   learning_rate_schedule (fun a b => a + b) 2 3 5 (fun s lr => s * lr) 4 7 2 (by norm_num)⟩
